import Mathlib

/-!
Verification of the `freezer` message-source core (`freezer_source.go`).

The Go code is shallowly embedded as pure Lean functions:

* a byte stream is a `List Nat` (each entry a byte value);
* `readLoop` embeds the labelled `readLoop` of `MessageSource.ConsumeMessages`,
  the frame decoder that repeatedly reads a 4-byte little-endian length,
  a payload, and recognises the zero-length end marker;
* `waitLoop` embeds the labelled `waitLoop` (segment acquisition with
  not-found polling racing the context's cancellation);
* `consumeLoop` / `ConsumeMessages` embed the outer `for seq := 0; ; seq++`
  loop.  The unbounded loop is driven by an explicit fuel parameter; running
  out of fuel is reported as `.spin`, distinct from any actual return of the
  Go function;
* the environment (`Env`) supplies, purely, what the `straw.StreamStore`
  and the `context.Context` would answer at each interaction point: the
  outcome of `OpenReadCloser` per (sequence number, attempt), the context
  status observed during each poll wait, and the result of the checked
  `rc.Close()` after a cleanly drained segment;
* the handler is a pure function from payload to `Option String`
  (`none` = nil error).
-/

namespace Freezer

/-- A byte stream: list of byte values. -/
abbrev Bytes := List Nat

/-- `binary.LittleEndian.Uint32` on four byte values. -/
def leUint32 (b0 b1 b2 b3 : Nat) : Nat :=
  b0 + b1 * 256 + b2 * 65536 + b3 * 16777216

/-- Outcome of one pass of the decoder loop over a whole segment. -/
inductive ReadStatus where
  | exhausted
  | fatal (e : String)
  | handlerErr (e : String)
deriving DecidableEq

/-- Embeds the `readLoop` of `ConsumeMessages` (lines 80-104 of
`freezer_source.go`), run over the full remaining contents of the open
segment.  Returns the payloads passed to the handler, in order, and how the
loop finished: `exhausted` models `break readLoop` (end marker followed by
`io.EOF`); `fatal` models the `return fmt.Errorf(...)` paths; `handlerErr`
models `return err` from the handler.  `io.ReadFull` on `n` bytes yields
`io.EOF` when no byte is available and `io.ErrUnexpectedEOF` when only some
are, hence the distinct formatted messages. -/
def readLoop (handler : Bytes → Option String) : Bytes → List Bytes × ReadStatus
  | [] => ([], .fatal "Could not read length (EOF)")
  | [_] => ([], .fatal "Could not read length (unexpected EOF)")
  | [_, _] => ([], .fatal "Could not read length (unexpected EOF)")
  | [_, _, _] => ([], .fatal "Could not read length (unexpected EOF)")
  | b0 :: b1 :: b2 :: b3 :: rest =>
    if leUint32 b0 b1 b2 b3 = 0 then
      match rest with
      | [] => ([], .exhausted)
      | _ :: _ =>
        ([], .fatal "Was able to read past end marker. This is broken, bailing out.")
    else
      if rest.length < leUint32 b0 b1 b2 b3 then
        if rest.isEmpty then ([], .fatal "Could not read payload (EOF)")
        else ([], .fatal "Could not read payload (unexpected EOF)")
      else
        match handler (rest.take (leUint32 b0 b1 b2 b3)) with
        | some e => ([rest.take (leUint32 b0 b1 b2 b3)], .handlerErr e)
        | none =>
          (rest.take (leUint32 b0 b1 b2 b3) ::
              (readLoop handler (rest.drop (leUint32 b0 b1 b2 b3))).1,
            (readLoop handler (rest.drop (leUint32 b0 b1 b2 b3))).2)
termination_by bytes => bytes.length
decreasing_by
  simp only [List.length_drop, List.length_cons]
  omega

/-- What `streamstore.OpenReadCloser` answers for one attempt. -/
inductive OpenResult where
  | ok (content : Bytes)
  | notFound
  | err (e : String)
deriving DecidableEq

/-- Context status observed at a poll wait (`ctx.Err()`):
`active` means `ctx.Done()` has not fired. -/
inductive CtxStatus where
  | active
  | deadlineExceeded
  | canceled
  | other (e : String)
deriving DecidableEq

/-- Pure environment: the answers of the stream store and the context at each
interaction point of `ConsumeMessages`. -/
structure Env where
  openSeg : Nat → Nat → OpenResult
  ctxAt : Nat → Nat → CtxStatus
  closeErr : Nat → Option String

/-- Outcome of the segment-acquisition `waitLoop`. -/
inductive AcquireResult where
  | opened (content : Bytes)
  | fatal (e : String)
  | gracefulStop
  | cancelErr (e : String)
  | spin
deriving DecidableEq

/-- One iteration of the body of the `waitLoop` of `ConsumeMessages`
(lines 62-78): try to open the segment at `seq`; on success proceed
(`opened`); on a non-not-found error return it (`fatal`); on not-found, race
the poll-period timer against `ctx.Done()`: deadline/cancel give a clean
`return nil` (`gracefulStop`), any other context error is returned
(`cancelErr`); `none` means the poll timer fired and the loop retries. -/
def waitStep (env : Env) (seq attempt : Nat) : Option AcquireResult :=
  match env.openSeg seq attempt with
  | .ok c => some (.opened c)
  | .err e => some (.fatal e)
  | .notFound =>
    match env.ctxAt seq attempt with
    | .deadlineExceeded => some .gracefulStop
    | .canceled => some .gracefulStop
    | .other e => some (.cancelErr e)
    | .active => none

/-- Embeds the `waitLoop` of `ConsumeMessages` (lines 60-79): run `waitStep`
at successive attempts until it resolves.  Fuel bounds the number of poll
timer fires; exhausting it is `.spin`. -/
def waitLoop (env : Env) (seq : Nat) : Nat → Nat → AcquireResult
  | 0, attempt =>
    match waitStep env seq attempt with
    | some r => r
    | none => .spin
  | fuel + 1, attempt =>
    match waitStep env seq attempt with
    | some r => r
    | none => waitLoop env seq fuel (attempt + 1)

/-- How a (fuel-bounded) run of `ConsumeMessages` finished: `ret e` models the
Go function returning (with `none` = `nil`); `spin` means the fuel ran out
while the loop was still running. -/
inductive RunStatus where
  | ret (e : Option String)
  | spin
deriving DecidableEq

/-- Embeds the outer `for seq := 0; ; seq++` loop of `ConsumeMessages`
(lines 47-108) starting from sequence number `seq`: acquire the segment
(`waitLoop`), drain it (`readLoop`), and on clean exhaustion check
`rc.Close()` and move to `seq + 1`.  Returns the payloads handed to the
handler, in order, and the run status. -/
def consumeLoop (env : Env) (handler : Bytes → Option String)
    (fuel seq : Nat) : List Bytes × RunStatus :=
  match fuel with
  | 0 => ([], .spin)
  | fuel + 1 =>
    match waitLoop env seq fuel 0 with
    | .spin => ([], .spin)
    | .fatal e => ([], .ret (some e))
    | .gracefulStop => ([], .ret none)
    | .cancelErr e => ([], .ret (some e))
    | .opened content =>
      match readLoop handler content with
      | (ms, .fatal e) => (ms, .ret (some e))
      | (ms, .handlerErr e) => (ms, .ret (some e))
      | (ms, .exhausted) =>
        match env.closeErr seq with
        | some e => (ms, .ret (some e))
        | none =>
          (ms ++ (consumeLoop env handler fuel (seq + 1)).1,
            (consumeLoop env handler fuel (seq + 1)).2)

/-- Embeds `MessageSource.ConsumeMessages`: the loop starts at sequence 0. -/
def ConsumeMessages (env : Env) (handler : Bytes → Option String)
    (fuel : Nat) : List Bytes × RunStatus :=
  consumeLoop env handler fuel 0

/-- The ways an error string `e` can arise for `ConsumeMessages` under
environment `env` and handler `hd`: a non-not-found open error, a non-graceful
cancellation cause, a decode or handler error while draining an opened
segment, or a failing `rc.Close()` after a clean drain. -/
def ErrSource (env : Env) (hd : Bytes → Option String) (e : String) : Prop :=
  (∃ s a, env.openSeg s a = .err e) ∨
  (∃ s a, env.openSeg s a = .notFound ∧ env.ctxAt s a = .other e) ∨
  (∃ s a c, env.openSeg s a = .ok c ∧
    ((readLoop hd c).2 = .fatal e ∨ (readLoop hd c).2 = .handlerErr e)) ∨
  (∃ s, env.closeErr s = some e)

/-! ### `NewMessageSource` -/

/-- The abstract `straw.StreamStore`, kept symbolic: either an underlying
store or a snappy decorator wrapped around one. -/
inductive StreamStore where
  | base (id : Nat)
  | snappy (inner : StreamStore)
deriving DecidableEq

/-- Embeds `newSnappyStreamStore`: wraps the given store. -/
def newSnappyStreamStore (s : StreamStore) : StreamStore := .snappy s

/-- Modelled from the spec: the `CompressionType` type and its constants are
not in the provided source (only their uses in `NewMessageSource`).  The spec
describes an enumerated compression selector; following the Go enum
convention it is an integer code with two named values. -/
abbrev CompressionType := Nat

/-- Modelled from the spec: the `none` compression selector. -/
def CompressionTypeNone : CompressionType := 0

/-- Modelled from the spec: the snappy compression selector. -/
def CompressionTypeSnappy : CompressionType := 1

/-- `time.Duration`: a count of nanoseconds. -/
abbrev Duration := Int

/-- `time.Second` in nanoseconds. -/
def timeSecond : Duration := 1000000000

/-- Embeds `MessageSourceConfig`. -/
structure MessageSourceConfig where
  Path : String
  PollPeriod : Duration
  CompressionType : CompressionType
deriving DecidableEq

/-- Embeds the `MessageSource` struct fields. -/
structure MessageSource where
  streamstore : StreamStore
  path : String
  pollPeriod : Duration
deriving DecidableEq

/-- Embeds `NewMessageSource` (lines 28-45): the `switch` on
`config.CompressionType` wraps the store for snappy, leaves it untouched for
none, and — having no default case — also leaves it untouched for any other
value; a zero `PollPeriod` defaults to `5 * time.Second`. -/
def NewMessageSource (streamstore : StreamStore)
    (config : MessageSourceConfig) : MessageSource :=
  let ss :=
    if config.CompressionType = CompressionTypeNone then streamstore
    else if config.CompressionType = CompressionTypeSnappy then
      newSnappyStreamStore streamstore
    else streamstore
  let pp := if config.PollPeriod = 0 then 5 * timeSecond else config.PollPeriod
  { streamstore := ss, path := config.Path, pollPeriod := pp }

/-! ### `seqToPath` -/

/-- Lowercase hexadecimal digit for a value below 16. -/
def hexChar (n : Nat) : Char :=
  if n < 10 then Char.ofNat (48 + n) else Char.ofNat (87 + n)

/-- Two lowercase hexadecimal digits of a byte (`%02x`). -/
def hex2 (b : Nat) : String := String.mk [hexChar (b / 16 % 16), hexChar (b % 16)]

/-- Modelled from the spec: `seqToPath` is not in the provided source — only
its call site in `ConsumeMessages` (line 49) and the layout the tests observe
(`/foo/00/00/00/00/00/00/` holding files `00`, `01`).  Per the spec, the
sequence number is decomposed into 7 big-endian byte groups, each rendered as
two lowercase hex digits; all bytes but the least significant are directory
levels under the root, the least significant is the file name. -/
def seqToPath (root : String) (seq : Nat) : String :=
  root ++ "/" ++ hex2 (seq / 256 ^ 6 % 256) ++ "/" ++ hex2 (seq / 256 ^ 5 % 256)
    ++ "/" ++ hex2 (seq / 256 ^ 4 % 256) ++ "/" ++ hex2 (seq / 256 ^ 3 % 256)
    ++ "/" ++ hex2 (seq / 256 ^ 2 % 256) ++ "/" ++ hex2 (seq / 256 % 256)
    ++ "/" ++ hex2 (seq % 256)

/-- The big-endian byte decomposition of `n` across `k` fixed groups, as the
spec words it: most significant byte first. -/
def bigEndianBytes : Nat → Nat → List Nat
  | 0, _ => []
  | k + 1, n => bigEndianBytes k (n / 256) ++ [n % 256]

/-- Joining path components under a root with `/` separators, as the spec
words the path format. -/
def pathJoin (root : String) (comps : List String) : String :=
  comps.foldl (fun acc c => acc ++ "/" ++ c) root

/-- The path format exactly as the spec words it:
`root / hex2(byteN-1) / … / hex2(byte0)` over the 7-group big-endian byte
decomposition of the sequence number. -/
def seqToPathSpec (root : String) (seq : Nat) : String :=
  pathJoin root ((bigEndianBytes 7 seq).map hex2)

/-! ### The sink-side wire format (for order statements) -/

/-- The four little-endian bytes of a 32-bit length. -/
def le4 (n : Nat) : Bytes :=
  [n % 256, n / 256 % 256, n / 65536 % 256, n / 16777216 % 256]

/-- One encoded frame: little-endian `uint32` length, then the payload. -/
def encodeFrame (p : Bytes) : Bytes := le4 p.length ++ p

/-- A cleanly closed segment holding the payloads `ps` in write order:
their frames followed by the end marker (`uint32` zero). -/
def encodeSegment : List Bytes → Bytes
  | [] => le4 0
  | p :: ps => encodeFrame p ++ encodeSegment ps

/-! ### Concrete environments used in evaluations -/

/-- No segment ever appears; the context is past its deadline. -/
def envGrace : Env :=
  ⟨fun _ _ => .notFound, fun _ _ => .deadlineExceeded, fun _ => none⟩

/-- No segment ever appears; the context carries a non-graceful cause. -/
def envOther : Env :=
  ⟨fun _ _ => .notFound, fun _ _ => .other "context cause", fun _ => none⟩

/-- Every open attempt fails with a non-not-found error. -/
def envErr : Env :=
  ⟨fun _ _ => .err "open failed", fun _ _ => .active, fun _ => none⟩

/-- No segment ever appears and the context stays active: pure polling. -/
def envPoll : Env :=
  ⟨fun _ _ => .notFound, fun _ _ => .active, fun _ => none⟩

/-- Segment 0 holds two messages then the end marker; no successor. -/
def envSeg : Env :=
  ⟨fun s _ => if s = 0 then .ok (encodeSegment [[1, 2, 3], [4, 5]]) else .notFound,
    fun _ _ => .deadlineExceeded, fun _ => none⟩

/-- Segment 0 has a stray byte after its end marker. -/
def envCorrupt : Env :=
  ⟨fun s _ => if s = 0 then .ok [0, 0, 0, 0, 9] else .notFound,
    fun _ _ => .deadlineExceeded, fun _ => none⟩

/-- Segment 0 is empty-but-clean; no successor ever appears and the context
stays active. -/
def envTail : Env :=
  ⟨fun s _ => if s = 0 then .ok [0, 0, 0, 0] else .notFound,
    fun _ _ => .active, fun _ => none⟩

/-- Segment 0 holds two one-byte messages then the end marker. -/
def envHandler : Env :=
  ⟨fun s _ => if s = 0 then .ok (encodeSegment [[1], [2]]) else .notFound,
    fun _ _ => .deadlineExceeded, fun _ => none⟩

/-! ### Helper lemmas: frame decoding -/

theorem le4_decode (n : Nat) (h : n < 4294967296) :
    leUint32 (n % 256) (n / 256 % 256) (n / 65536 % 256) (n / 16777216 % 256) = n := by
  unfold leUint32
  omega

theorem readLoop_endMarker (h : Bytes → Option String) (b0 b1 b2 b3 : Nat)
    (hz : leUint32 b0 b1 b2 b3 = 0) :
    readLoop h [b0, b1, b2, b3] = ([], .exhausted) := by
  rw [readLoop.eq_def]
  simp [hz]

theorem readLoop_pastEndMarker (h : Bytes → Option String) (b0 b1 b2 b3 x : Nat)
    (xs : Bytes) (hz : leUint32 b0 b1 b2 b3 = 0) :
    readLoop h (b0 :: b1 :: b2 :: b3 :: x :: xs) =
      ([], .fatal "Was able to read past end marker. This is broken, bailing out.") := by
  rw [readLoop.eq_def]
  simp [hz]

theorem readLoop_shortLen (h : Bytes → Option String) (bytes : Bytes)
    (hlt : bytes.length < 4) :
    readLoop h bytes =
      ([], .fatal (if bytes.isEmpty then "Could not read length (EOF)"
        else "Could not read length (unexpected EOF)")) := by
  match bytes, hlt with
  | [], _ => rw [readLoop]; rfl
  | [_], _ => rw [readLoop]; rfl
  | [_, _], _ => rw [readLoop]; rfl
  | [_, _, _], _ => rw [readLoop]; rfl

theorem readLoop_shortPayload (h : Bytes → Option String) (b0 b1 b2 b3 : Nat)
    (rest : Bytes) (hpos : 0 < leUint32 b0 b1 b2 b3)
    (hshort : rest.length < leUint32 b0 b1 b2 b3) :
    readLoop h (b0 :: b1 :: b2 :: b3 :: rest) =
      ([], .fatal (if rest.isEmpty then "Could not read payload (EOF)"
        else "Could not read payload (unexpected EOF)")) := by
  have h0 : ¬ leUint32 b0 b1 b2 b3 = 0 := by omega
  by_cases he : rest.isEmpty <;> simp [readLoop.eq_def, h0, hshort, he]

theorem readLoop_message (h : Bytes → Option String) (b0 b1 b2 b3 : Nat)
    (rest : Bytes) (hpos : 0 < leUint32 b0 b1 b2 b3)
    (hlong : leUint32 b0 b1 b2 b3 ≤ rest.length) :
    readLoop h (b0 :: b1 :: b2 :: b3 :: rest) =
      match h (rest.take (leUint32 b0 b1 b2 b3)) with
      | some e => ([rest.take (leUint32 b0 b1 b2 b3)], .handlerErr e)
      | none =>
        (rest.take (leUint32 b0 b1 b2 b3) ::
            (readLoop h (rest.drop (leUint32 b0 b1 b2 b3))).1,
          (readLoop h (rest.drop (leUint32 b0 b1 b2 b3))).2) := by
  have h0 : ¬ leUint32 b0 b1 b2 b3 = 0 := by omega
  have h1 : ¬ rest.length < leUint32 b0 b1 b2 b3 := by omega
  rw [readLoop.eq_def]
  simp only [h0, if_false, h1]

theorem encodeFrame_append (p rest : Bytes) :
    encodeFrame p ++ rest =
      p.length % 256 :: (p.length / 256 % 256) :: (p.length / 65536 % 256) ::
        (p.length / 16777216 % 256) :: (p ++ rest) := by
  simp [encodeFrame, le4]

theorem readLoop_frame (h : Bytes → Option String) (p rest : Bytes)
    (h1 : 0 < p.length) (h2 : p.length < 4294967296) :
    readLoop h (encodeFrame p ++ rest) =
      match h p with
      | some e => ([p], .handlerErr e)
      | none => (p :: (readLoop h rest).1, (readLoop h rest).2) := by
  have hd : leUint32 (p.length % 256) (p.length / 256 % 256) (p.length / 65536 % 256)
      (p.length / 16777216 % 256) = p.length := le4_decode p.length h2
  rw [encodeFrame_append, readLoop_message _ _ _ _ _ _ (by omega)
    (by rw [hd]; simp)]
  rw [hd]
  simp [List.take_left, List.drop_left]

theorem readLoop_encode (h : Bytes → Option String) (ps : List Bytes)
    (hlen : ∀ p ∈ ps, 0 < p.length ∧ p.length < 4294967296)
    (hok : ∀ p ∈ ps, h p = none) :
    readLoop h (encodeSegment ps) = (ps, .exhausted) := by
  induction ps with
  | nil =>
    rw [encodeSegment]
    exact readLoop_endMarker h 0 0 0 0 (by simp [leUint32])
  | cons p ps ih =>
    rw [encodeSegment, readLoop_frame h p (encodeSegment ps)
      (hlen p (by simp)).1 (hlen p (by simp)).2]
    rw [hok p (by simp)]
    rw [ih (fun q hq => hlen q (by simp [hq])) (fun q hq => hok q (by simp [hq]))]

/-! ### Helper lemmas: segment acquisition and the outer loop -/

theorem waitLoop_step (env : Env) (seq fuel attempt : Nat) :
    waitLoop env seq fuel attempt =
      match waitStep env seq attempt with
      | some r => r
      | none =>
        match fuel with
        | 0 => .spin
        | f + 1 => waitLoop env seq f (attempt + 1) := by
  cases fuel <;> rfl

theorem waitStep_ok (env : Env) (seq attempt : Nat) (c : Bytes)
    (h : env.openSeg seq attempt = .ok c) :
    waitStep env seq attempt = some (.opened c) := by
  unfold waitStep
  rw [h]

theorem waitStep_err (env : Env) (seq attempt : Nat) (e : String)
    (h : env.openSeg seq attempt = .err e) :
    waitStep env seq attempt = some (.fatal e) := by
  unfold waitStep
  rw [h]

theorem waitStep_graceful (env : Env) (seq attempt : Nat)
    (h : env.openSeg seq attempt = .notFound)
    (hc : env.ctxAt seq attempt = .deadlineExceeded ∨
      env.ctxAt seq attempt = .canceled) :
    waitStep env seq attempt = some .gracefulStop := by
  unfold waitStep
  rw [h]
  rcases hc with hc | hc <;> rw [hc]

theorem waitStep_cancelErr (env : Env) (seq attempt : Nat) (e : String)
    (h : env.openSeg seq attempt = .notFound)
    (hc : env.ctxAt seq attempt = .other e) :
    waitStep env seq attempt = some (.cancelErr e) := by
  unfold waitStep
  rw [h, hc]

theorem waitStep_none (env : Env) (seq attempt : Nat)
    (h : env.openSeg seq attempt = .notFound)
    (hc : env.ctxAt seq attempt = .active) :
    waitStep env seq attempt = none := by
  unfold waitStep
  rw [h, hc]

theorem waitStep_inv (env : Env) (seq attempt : Nat) (r : AcquireResult)
    (h : waitStep env seq attempt = some r) :
    (∃ c, r = .opened c ∧ env.openSeg seq attempt = .ok c) ∨
    (∃ e, r = .fatal e ∧ env.openSeg seq attempt = .err e) ∨
    (r = .gracefulStop ∧ env.openSeg seq attempt = .notFound ∧
      (env.ctxAt seq attempt = .deadlineExceeded ∨
        env.ctxAt seq attempt = .canceled)) ∨
    (∃ e, r = .cancelErr e ∧ env.openSeg seq attempt = .notFound ∧
      env.ctxAt seq attempt = .other e) := by
  unfold waitStep at h
  split at h
  · rename_i c heq
    injection h with h
    exact Or.inl ⟨c, h.symm, heq⟩
  · rename_i e heq
    injection h with h
    exact Or.inr (Or.inl ⟨e, h.symm, heq⟩)
  · rename_i heq
    split at h
    · rename_i hc
      injection h with h
      exact Or.inr (Or.inr (Or.inl ⟨h.symm, heq, Or.inl hc⟩))
    · rename_i hc
      injection h with h
      exact Or.inr (Or.inr (Or.inl ⟨h.symm, heq, Or.inr hc⟩))
    · rename_i e hc
      injection h with h
      exact Or.inr (Or.inr (Or.inr ⟨e, h.symm, heq, hc⟩))
    · exact absurd h (by simp)

theorem waitLoop_resolved (env : Env) (seq : Nat) (r : AcquireResult) :
    ∀ fuel attempt, waitStep env seq attempt = some r →
      waitLoop env seq fuel attempt = r := by
  intro fuel attempt h
  rw [waitLoop_step, h]

theorem waitLoop_retry (env : Env) (seq fuel attempt : Nat)
    (h : waitStep env seq attempt = none) :
    waitLoop env seq (fuel + 1) attempt = waitLoop env seq fuel (attempt + 1) := by
  rw [waitLoop_step, h]

theorem waitLoop_src (env : Env) (seq : Nat) :
    ∀ fuel attempt r, waitLoop env seq fuel attempt = r → r ≠ .spin →
      ∃ a, waitStep env seq a = some r := by
  intro fuel
  induction fuel with
  | zero =>
    intro attempt r h hne
    rw [waitLoop_step] at h
    revert h
    match hs : waitStep env seq attempt with
    | some r' =>
      intro h
      simp only at h
      rw [h] at hs
      exact ⟨attempt, hs⟩
    | none =>
      intro h
      simp only at h
      exact absurd h.symm hne
  | succ f ih =>
    intro attempt r h hne
    rw [waitLoop_step] at h
    revert h
    match hs : waitStep env seq attempt with
    | some r' =>
      intro h
      simp only at h
      rw [h] at hs
      exact ⟨attempt, hs⟩
    | none =>
      intro h
      simp only at h
      exact ih (attempt + 1) r h hne

theorem waitLoop_spin_all (env : Env) (seq : Nat)
    (ho : ∀ a, env.openSeg seq a = .notFound)
    (hc : ∀ a, env.ctxAt seq a = .active) :
    ∀ fuel attempt, waitLoop env seq fuel attempt = .spin := by
  intro fuel
  induction fuel with
  | zero =>
    intro attempt
    rw [waitLoop_step, waitStep_none env seq attempt (ho attempt) (hc attempt)]
  | succ f ih =>
    intro attempt
    rw [waitLoop_step, waitStep_none env seq attempt (ho attempt) (hc attempt)]
    exact ih (attempt + 1)

theorem waitLoop_fatal_srcE (env : Env) (seq fuel attempt : Nat) (e : String)
    (h : waitLoop env seq fuel attempt = .fatal e) :
    ∃ a, env.openSeg seq a = .err e := by
  obtain ⟨a, hs⟩ := waitLoop_src env seq fuel attempt _ h (by simp)
  rcases waitStep_inv env seq a _ hs with ⟨c, hr, _⟩ | ⟨e', hr, ho⟩ |
    ⟨hr, _, _⟩ | ⟨e', hr, _, _⟩
  · exact absurd hr (by simp)
  · injection hr with hr
    exact ⟨a, by rw [ho, hr]⟩
  · exact absurd hr (by simp)
  · exact absurd hr (by simp)

theorem waitLoop_graceful_srcE (env : Env) (seq fuel attempt : Nat)
    (h : waitLoop env seq fuel attempt = .gracefulStop) :
    ∃ a, env.openSeg seq a = .notFound ∧
      (env.ctxAt seq a = .deadlineExceeded ∨ env.ctxAt seq a = .canceled) := by
  obtain ⟨a, hs⟩ := waitLoop_src env seq fuel attempt _ h (by simp)
  rcases waitStep_inv env seq a _ hs with ⟨c, hr, _⟩ | ⟨e', hr, _⟩ |
    ⟨_, ho, hc⟩ | ⟨e', hr, _, _⟩
  · exact absurd hr (by simp)
  · exact absurd hr (by simp)
  · exact ⟨a, ho, hc⟩
  · exact absurd hr (by simp)

theorem waitLoop_cancelErr_srcE (env : Env) (seq fuel attempt : Nat) (e : String)
    (h : waitLoop env seq fuel attempt = .cancelErr e) :
    ∃ a, env.openSeg seq a = .notFound ∧ env.ctxAt seq a = .other e := by
  obtain ⟨a, hs⟩ := waitLoop_src env seq fuel attempt _ h (by simp)
  rcases waitStep_inv env seq a _ hs with ⟨c, hr, _⟩ | ⟨e', hr, _⟩ |
    ⟨hr, _, _⟩ | ⟨e', hr, ho, hc⟩
  · exact absurd hr (by simp)
  · exact absurd hr (by simp)
  · exact absurd hr (by simp)
  · injection hr with hr
    exact ⟨a, ho, by rw [hc, hr]⟩

theorem waitLoop_opened_srcE (env : Env) (seq fuel attempt : Nat) (c : Bytes)
    (h : waitLoop env seq fuel attempt = .opened c) :
    ∃ a, env.openSeg seq a = .ok c := by
  obtain ⟨a, hs⟩ := waitLoop_src env seq fuel attempt _ h (by simp)
  rcases waitStep_inv env seq a _ hs with ⟨c', hr, ho⟩ | ⟨e', hr, _⟩ |
    ⟨hr, _, _⟩ | ⟨e', hr, _, _⟩
  · injection hr with hr
    exact ⟨a, by rw [ho, hr]⟩
  · exact absurd hr (by simp)
  · exact absurd hr (by simp)
  · exact absurd hr (by simp)

/-! ### Helper lemmas: the outer loop -/

theorem consumeLoop_zero (env : Env) (hd : Bytes → Option String) (seq : Nat) :
    consumeLoop env hd 0 seq = ([], .spin) := rfl

theorem consumeLoop_succ (env : Env) (hd : Bytes → Option String)
    (fuel seq : Nat) :
    consumeLoop env hd (fuel + 1) seq =
      match waitLoop env seq fuel 0 with
      | .spin => ([], .spin)
      | .fatal e => ([], .ret (some e))
      | .gracefulStop => ([], .ret none)
      | .cancelErr e => ([], .ret (some e))
      | .opened content =>
        match readLoop hd content with
        | (ms, .fatal e) => (ms, .ret (some e))
        | (ms, .handlerErr e) => (ms, .ret (some e))
        | (ms, .exhausted) =>
          match env.closeErr seq with
          | some e => (ms, .ret (some e))
          | none =>
            (ms ++ (consumeLoop env hd fuel (seq + 1)).1,
              (consumeLoop env hd fuel (seq + 1)).2) := rfl

theorem consumeLoop_graceful (env : Env) (hd : Bytes → Option String)
    (fuel seq : Nat) (hw : waitLoop env seq fuel 0 = .gracefulStop) :
    consumeLoop env hd (fuel + 1) seq = ([], .ret none) := by
  rw [consumeLoop_succ, hw]

theorem consumeLoop_cancelErr (env : Env) (hd : Bytes → Option String)
    (fuel seq : Nat) (e : String) (hw : waitLoop env seq fuel 0 = .cancelErr e) :
    consumeLoop env hd (fuel + 1) seq = ([], .ret (some e)) := by
  rw [consumeLoop_succ, hw]

theorem consumeLoop_openFatal (env : Env) (hd : Bytes → Option String)
    (fuel seq : Nat) (e : String) (hw : waitLoop env seq fuel 0 = .fatal e) :
    consumeLoop env hd (fuel + 1) seq = ([], .ret (some e)) := by
  rw [consumeLoop_succ, hw]

theorem consumeLoop_spin (env : Env) (hd : Bytes → Option String)
    (fuel seq : Nat) (hw : waitLoop env seq fuel 0 = .spin) :
    consumeLoop env hd (fuel + 1) seq = ([], .spin) := by
  rw [consumeLoop_succ, hw]

theorem consumeLoop_drainFatal (env : Env) (hd : Bytes → Option String)
    (fuel seq : Nat) (content : Bytes) (ms : List Bytes) (e : String)
    (hw : waitLoop env seq fuel 0 = .opened content)
    (hr : readLoop hd content = (ms, .fatal e)) :
    consumeLoop env hd (fuel + 1) seq = (ms, .ret (some e)) := by
  rw [consumeLoop_succ, hw]
  simp only [hr]

theorem consumeLoop_drainHandlerErr (env : Env) (hd : Bytes → Option String)
    (fuel seq : Nat) (content : Bytes) (ms : List Bytes) (e : String)
    (hw : waitLoop env seq fuel 0 = .opened content)
    (hr : readLoop hd content = (ms, .handlerErr e)) :
    consumeLoop env hd (fuel + 1) seq = (ms, .ret (some e)) := by
  rw [consumeLoop_succ, hw]
  simp only [hr]

theorem consumeLoop_closeErr (env : Env) (hd : Bytes → Option String)
    (fuel seq : Nat) (content : Bytes) (ms : List Bytes) (e : String)
    (hw : waitLoop env seq fuel 0 = .opened content)
    (hr : readLoop hd content = (ms, .exhausted))
    (hc : env.closeErr seq = some e) :
    consumeLoop env hd (fuel + 1) seq = (ms, .ret (some e)) := by
  rw [consumeLoop_succ, hw]
  simp only [hr, hc]

theorem consumeLoop_nextSeq (env : Env) (hd : Bytes → Option String)
    (fuel seq : Nat) (content : Bytes) (ms : List Bytes)
    (hw : waitLoop env seq fuel 0 = .opened content)
    (hr : readLoop hd content = (ms, .exhausted))
    (hc : env.closeErr seq = none) :
    consumeLoop env hd (fuel + 1) seq =
      (ms ++ (consumeLoop env hd fuel (seq + 1)).1,
        (consumeLoop env hd fuel (seq + 1)).2) := by
  rw [consumeLoop_succ, hw]
  simp only [hr, hc]

theorem consumeLoop_spin_forever (env : Env) (hd : Bytes → Option String)
    (seq : Nat) (ho : ∀ a, env.openSeg seq a = .notFound)
    (hc : ∀ a, env.ctxAt seq a = .active) :
    ∀ fuel, consumeLoop env hd fuel seq = ([], .spin) := by
  intro fuel
  match fuel with
  | 0 => exact consumeLoop_zero env hd seq
  | f + 1 => exact consumeLoop_spin env hd f seq (waitLoop_spin_all env seq ho hc f 0)

theorem consumeLoop_ret_none_src (env : Env) (hd : Bytes → Option String) :
    ∀ fuel seq ms, consumeLoop env hd fuel seq = (ms, .ret none) →
      ∃ s a, env.openSeg s a = .notFound ∧
        (env.ctxAt s a = .deadlineExceeded ∨ env.ctxAt s a = .canceled) := by
  intro fuel
  induction fuel with
  | zero =>
    intro seq ms h
    rw [consumeLoop_zero] at h
    simp at h
  | succ f ih =>
    intro seq ms h
    rw [consumeLoop_succ] at h
    revert h
    match hw : waitLoop env seq f 0 with
    | .spin => intro h; simp at h
    | .fatal e => intro h; simp at h
    | .cancelErr e => intro h; simp at h
    | .gracefulStop =>
      intro _
      obtain ⟨a, ho, hc⟩ := waitLoop_graceful_srcE env seq f 0 hw
      exact ⟨seq, a, ho, hc⟩
    | .opened content =>
      intro h
      simp only at h
      match hrd : readLoop hd content with
      | (ms', .fatal e) => rw [hrd] at h; simp at h
      | (ms', .handlerErr e) => rw [hrd] at h; simp at h
      | (ms', .exhausted) =>
        rw [hrd] at h
        simp only at h
        match hce : env.closeErr seq with
        | some e => rw [hce] at h; simp at h
        | none =>
          rw [hce] at h
          simp only at h
          have h2 : (consumeLoop env hd f (seq + 1)).2 = .ret none := by
            have := congrArg Prod.snd h
            simpa using this
          exact ih (seq + 1) (consumeLoop env hd f (seq + 1)).1 (by rw [← h2])

theorem consumeLoop_ret_some_src (env : Env) (hd : Bytes → Option String) :
    ∀ fuel seq ms e, consumeLoop env hd fuel seq = (ms, .ret (some e)) →
      ErrSource env hd e := by
  intro fuel
  induction fuel with
  | zero =>
    intro seq ms e h
    rw [consumeLoop_zero] at h
    simp at h
  | succ f ih =>
    intro seq ms e h
    rw [consumeLoop_succ] at h
    revert h
    match hw : waitLoop env seq f 0 with
    | .spin => intro h; simp at h
    | .gracefulStop => intro h; simp at h
    | .fatal e' =>
      intro h
      have he : e' = e := by
        have := congrArg Prod.snd h
        simpa using this
      subst he
      obtain ⟨a, ho⟩ := waitLoop_fatal_srcE env seq f 0 e' hw
      exact Or.inl ⟨seq, a, ho⟩
    | .cancelErr e' =>
      intro h
      have he : e' = e := by
        have := congrArg Prod.snd h
        simpa using this
      subst he
      obtain ⟨a, ho, hc⟩ := waitLoop_cancelErr_srcE env seq f 0 e' hw
      exact Or.inr (Or.inl ⟨seq, a, ho, hc⟩)
    | .opened content =>
      intro h
      simp only at h
      match hrd : readLoop hd content with
      | (ms', .fatal e') =>
        rw [hrd] at h
        have he : e' = e := by
          have := congrArg Prod.snd h
          simpa using this
        subst he
        obtain ⟨a, ho⟩ := waitLoop_opened_srcE env seq f 0 content hw
        exact Or.inr (Or.inr (Or.inl ⟨seq, a, content, ho, Or.inl (by rw [hrd])⟩))
      | (ms', .handlerErr e') =>
        rw [hrd] at h
        have he : e' = e := by
          have := congrArg Prod.snd h
          simpa using this
        subst he
        obtain ⟨a, ho⟩ := waitLoop_opened_srcE env seq f 0 content hw
        exact Or.inr (Or.inr (Or.inl ⟨seq, a, content, ho, Or.inr (by rw [hrd])⟩))
      | (ms', .exhausted) =>
        rw [hrd] at h
        simp only at h
        match hce : env.closeErr seq with
        | some e' =>
          rw [hce] at h
          have he : e' = e := by
            have := congrArg Prod.snd h
            simpa using this
          subst he
          exact Or.inr (Or.inr (Or.inr ⟨seq, hce⟩))
        | none =>
          rw [hce] at h
          simp only at h
          have h2 : (consumeLoop env hd f (seq + 1)).2 = .ret (some e) := by
            have := congrArg Prod.snd h
            simpa using this
          exact ih (seq + 1) (consumeLoop env hd f (seq + 1)).1 e (by rw [← h2])

/-! ### Helper lemmas: the path scheme -/

theorem hexChar_inj : ∀ m, m < 16 → ∀ n, n < 16 → hexChar m = hexChar n → m = n := by
  decide

theorem hex2_data (b : Nat) :
    (hex2 b).data = [hexChar (b / 16 % 16), hexChar (b % 16)] := rfl

theorem hex2_length (b : Nat) : (hex2 b).length = 2 := rfl

theorem slash_data : ("/" : String).data = ['/'] := rfl

theorem slash_length : ("/" : String).length = 1 := rfl

theorem byte_of_hexChars {x y : Nat} (hx : x < 256) (hy : y < 256)
    (h1 : hexChar (x / 16 % 16) = hexChar (y / 16 % 16))
    (h2 : hexChar (x % 16) = hexChar (y % 16)) : x = y := by
  have e1 := hexChar_inj _ (Nat.mod_lt _ (by norm_num)) _ (Nat.mod_lt _ (by norm_num)) h1
  have e2 := hexChar_inj _ (Nat.mod_lt _ (by norm_num)) _ (Nat.mod_lt _ (by norm_num)) h2
  omega

theorem hex2_inj {x y : Nat} (hx : x < 256) (hy : y < 256)
    (h : hex2 x = hex2 y) : x = y := by
  have hdata : [hexChar (x / 16 % 16), hexChar (x % 16)] =
      [hexChar (y / 16 % 16), hexChar (y % 16)] := congrArg String.data h
  injection hdata with h1 hrest
  injection hrest with h2 _
  exact byte_of_hexChars hx hy h1 h2

theorem bigEndianBytes_seven (n : Nat) :
    bigEndianBytes 7 n = [n / 256 ^ 6 % 256, n / 256 ^ 5 % 256, n / 256 ^ 4 % 256,
      n / 256 ^ 3 % 256, n / 256 ^ 2 % 256, n / 256 % 256, n % 256] := by
  have h : bigEndianBytes 7 n =
      [n / 256 / 256 / 256 / 256 / 256 / 256 % 256,
        n / 256 / 256 / 256 / 256 / 256 % 256,
        n / 256 / 256 / 256 / 256 % 256,
        n / 256 / 256 / 256 % 256,
        n / 256 / 256 % 256,
        n / 256 % 256,
        n % 256] := rfl
  rw [h]
  norm_num [Nat.div_div_eq_div_mul]

theorem seqToPath_eq_spec (root : String) (seq : Nat) :
    seqToPath root seq = seqToPathSpec root seq := by
  rw [seqToPathSpec, bigEndianBytes_seven]
  rfl

theorem seqToPath_length (root : String) (seq : Nat) :
    (seqToPath root seq).length = root.length + 21 := by
  simp [seqToPath, String.length_append, hex2_length, slash_length]

theorem seqToPath_data (root : String) (seq : Nat) :
    (seqToPath root seq).data =
      root.data ++
        '/' :: hexChar (seq / 256 ^ 6 % 256 / 16 % 16) :: hexChar (seq / 256 ^ 6 % 256 % 16) ::
        '/' :: hexChar (seq / 256 ^ 5 % 256 / 16 % 16) :: hexChar (seq / 256 ^ 5 % 256 % 16) ::
        '/' :: hexChar (seq / 256 ^ 4 % 256 / 16 % 16) :: hexChar (seq / 256 ^ 4 % 256 % 16) ::
        '/' :: hexChar (seq / 256 ^ 3 % 256 / 16 % 16) :: hexChar (seq / 256 ^ 3 % 256 % 16) ::
        '/' :: hexChar (seq / 256 ^ 2 % 256 / 16 % 16) :: hexChar (seq / 256 ^ 2 % 256 % 16) ::
        '/' :: hexChar (seq / 256 % 256 / 16 % 16) :: hexChar (seq / 256 % 256 % 16) ::
        '/' :: hexChar (seq % 256 / 16 % 16) :: hexChar (seq % 256 % 16) :: [] := by
  simp [seqToPath, String.data_append, hex2_data, slash_data]

theorem seq_of_bytes {s1 s2 : Nat}
    (h1 : s1 < 72057594037927936) (h2 : s2 < 72057594037927936)
    (e6 : s1 / 256 ^ 6 % 256 = s2 / 256 ^ 6 % 256)
    (e5 : s1 / 256 ^ 5 % 256 = s2 / 256 ^ 5 % 256)
    (e4 : s1 / 256 ^ 4 % 256 = s2 / 256 ^ 4 % 256)
    (e3 : s1 / 256 ^ 3 % 256 = s2 / 256 ^ 3 % 256)
    (e2 : s1 / 256 ^ 2 % 256 = s2 / 256 ^ 2 % 256)
    (e1 : s1 / 256 % 256 = s2 / 256 % 256)
    (e0 : s1 % 256 = s2 % 256) : s1 = s2 := by
  have p6 : (256 : Nat) ^ 6 = 281474976710656 := by norm_num
  have p5 : (256 : Nat) ^ 5 = 1099511627776 := by norm_num
  have p4 : (256 : Nat) ^ 4 = 4294967296 := by norm_num
  have p3 : (256 : Nat) ^ 3 = 16777216 := by norm_num
  have p2 : (256 : Nat) ^ 2 = 65536 := by norm_num
  rw [p6] at e6
  rw [p5] at e5
  rw [p4] at e4
  rw [p3] at e3
  rw [p2] at e2
  omega

theorem seqToPath_inj (root : String) (s1 s2 : Nat)
    (h1 : s1 < 72057594037927936) (h2 : s2 < 72057594037927936)
    (h : seqToPath root s1 = seqToPath root s2) : s1 = s2 := by
  have hd := congrArg String.data h
  rw [seqToPath_data, seqToPath_data] at hd
  have hd' := List.append_cancel_left hd
  simp only [List.cons.injEq, and_true] at hd'
  obtain ⟨-, q6a, q6b, -, q5a, q5b, -, q4a, q4b, -, q3a, q3b, -, q2a, q2b, -,
    q1a, q1b, -, q0a, q0b⟩ := hd'
  have hb : ∀ k : Nat, s1 / 256 ^ k % 256 < 256 := fun k => Nat.mod_lt _ (by norm_num)
  have b6 := byte_of_hexChars (hb 6) (Nat.mod_lt _ (by norm_num)) q6a q6b
  have b5 := byte_of_hexChars (hb 5) (Nat.mod_lt _ (by norm_num)) q5a q5b
  have b4 := byte_of_hexChars (hb 4) (Nat.mod_lt _ (by norm_num)) q4a q4b
  have b3 := byte_of_hexChars (hb 3) (Nat.mod_lt _ (by norm_num)) q3a q3b
  have b2 := byte_of_hexChars (hb 2) (Nat.mod_lt _ (by norm_num)) q2a q2b
  have b1 := byte_of_hexChars (Nat.mod_lt _ (by norm_num)) (Nat.mod_lt _ (by norm_num)) q1a q1b
  have b0 := byte_of_hexChars (Nat.mod_lt _ (by norm_num)) (Nat.mod_lt _ (by norm_num)) q0a q0b
  exact seq_of_bytes h1 h2 b6 b5 b4 b3 b2 b1 b0

/-! ### Claims -/

/-- Claim C1: whenever a decode step reads a frame length equal to 0 (the end
marker), one further byte is read: end-of-data means the segment is cleanly
exhausted and consumption proceeds to the next sequence number, while any
byte after the marker yields a fatal decoding error that is returned, never
skipped. -/
theorem C1_endMarker (hd : Bytes → Option String) (env : Env)
    (b0 b1 b2 b3 : Nat) (extra : Bytes) (fuel seq : Nat) (content : Bytes)
    (ms : List Bytes) (e : String) :
    (leUint32 b0 b1 b2 b3 = 0 →
      readLoop hd [b0, b1, b2, b3] = ([], .exhausted) ∧
      (extra ≠ [] →
        readLoop hd (b0 :: b1 :: b2 :: b3 :: extra) =
          ([], .fatal "Was able to read past end marker. This is broken, bailing out."))) ∧
    (env.openSeg seq 0 = .ok content → readLoop hd content = (ms, .exhausted) →
      env.closeErr seq = none →
      consumeLoop env hd (fuel + 1) seq =
        (ms ++ (consumeLoop env hd fuel (seq + 1)).1,
          (consumeLoop env hd fuel (seq + 1)).2)) ∧
    (env.openSeg seq 0 = .ok content → readLoop hd content = (ms, .fatal e) →
      consumeLoop env hd (fuel + 1) seq = (ms, .ret (some e))) := by
  refine ⟨fun hz => ⟨readLoop_endMarker hd b0 b1 b2 b3 hz, fun hne => ?_⟩,
    fun ho hr hc => ?_, fun ho hr => ?_⟩
  · cases extra with
    | nil => exact absurd rfl hne
    | cons x xs => exact readLoop_pastEndMarker hd b0 b1 b2 b3 x xs hz
  · exact consumeLoop_nextSeq env hd fuel seq content ms
      (waitLoop_resolved env seq _ fuel 0 (waitStep_ok env seq 0 content ho)) hr hc
  · exact consumeLoop_drainFatal env hd fuel seq content ms e
      (waitLoop_resolved env seq _ fuel 0 (waitStep_ok env seq 0 content ho)) hr

theorem C1_endMarker_witness :
    readLoop (fun _ => none) [0, 0, 0, 0] = ([], .exhausted) ∧
    consumeLoop envCorrupt (fun _ => none) 1 0 =
      ([], .ret (some "Was able to read past end marker. This is broken, bailing out.")) := by
  constructor
  · exact ((C1_endMarker (fun _ => none) envCorrupt 0 0 0 0 [9] 0 0 [0, 0, 0, 0, 9]
      [] "x").1 rfl).1
  · exact (C1_endMarker (fun _ => none) envCorrupt 0 0 0 0 [9] 0 0 [0, 0, 0, 0, 9] []
      "Was able to read past end marker. This is broken, bailing out.").2.2 rfl
      (readLoop_pastEndMarker (fun _ => none) 0 0 0 0 9 [] rfl)

/-- Claim C2: consumption starts at sequence number 0, proceeds in strictly
increasing sequence order (clean exhaustion closes the handle, increments the
sequence number by one, and acquires the next segment), and within a segment
the frames are delivered in exactly the order they appear in the stream. -/
theorem C2_order (env : Env) (hd : Bytes → Option String) (fuel seq : Nat)
    (content : Bytes) (ms : List Bytes) (ps : List Bytes) :
    ConsumeMessages env hd fuel = consumeLoop env hd fuel 0 ∧
    ((∀ p ∈ ps, 0 < p.length ∧ p.length < 4294967296) → (∀ p ∈ ps, hd p = none) →
      readLoop hd (encodeSegment ps) = (ps, .exhausted)) ∧
    (env.openSeg seq 0 = .ok content → readLoop hd content = (ms, .exhausted) →
      env.closeErr seq = none →
      consumeLoop env hd (fuel + 1) seq =
        (ms ++ (consumeLoop env hd fuel (seq + 1)).1,
          (consumeLoop env hd fuel (seq + 1)).2)) := by
  refine ⟨rfl, fun hlen hok => readLoop_encode hd ps hlen hok, fun ho hr hc => ?_⟩
  exact consumeLoop_nextSeq env hd fuel seq content ms
    (waitLoop_resolved env seq _ fuel 0 (waitStep_ok env seq 0 content ho)) hr hc

theorem C2_order_witness :
    readLoop (fun _ => none) (encodeSegment [[1, 2, 3], [4, 5]]) =
      ([[1, 2, 3], [4, 5]], .exhausted) ∧
    consumeLoop envSeg (fun _ => none) 2 0 =
      ([[1, 2, 3], [4, 5]] ++ (consumeLoop envSeg (fun _ => none) 1 1).1,
        (consumeLoop envSeg (fun _ => none) 1 1).2) := by
  have hseg := (C2_order envSeg (fun _ => none) 1 0 (encodeSegment [[1, 2, 3], [4, 5]])
    [[1, 2, 3], [4, 5]] [[1, 2, 3], [4, 5]]).2.1 (by decide) (fun _ _ => rfl)
  exact ⟨hseg, (C2_order envSeg (fun _ => none) 1 0 (encodeSegment [[1, 2, 3], [4, 5]])
    [[1, 2, 3], [4, 5]] [[1, 2, 3], [4, 5]]).2.2 rfl hseg rfl⟩

/-- Claim C3: when the cancellation signal fires while waiting in the
segment-acquisition phase, the consume operation returns nil for a deadline
or explicit-cancel cause, and returns the cause as an error for any other
cancellation reason. -/
theorem C3_cancellation (env : Env) (hd : Bytes → Option String)
    (seq attempt fuel : Nat) :
    env.openSeg seq attempt = .notFound →
    ((env.ctxAt seq attempt = .deadlineExceeded ∨
        env.ctxAt seq attempt = .canceled) →
      waitLoop env seq fuel attempt = .gracefulStop ∧
      (attempt = 0 → consumeLoop env hd (fuel + 1) seq = ([], .ret none))) ∧
    (∀ e, env.ctxAt seq attempt = .other e →
      waitLoop env seq fuel attempt = .cancelErr e ∧
      (attempt = 0 → consumeLoop env hd (fuel + 1) seq = ([], .ret (some e)))) := by
  intro ho
  refine ⟨fun hc => ?_, fun e hc => ?_⟩
  · have hs := waitStep_graceful env seq attempt ho hc
    refine ⟨waitLoop_resolved env seq _ fuel attempt hs, fun ha => ?_⟩
    subst ha
    exact consumeLoop_graceful env hd fuel seq (waitLoop_resolved env seq _ fuel 0 hs)
  · have hs := waitStep_cancelErr env seq attempt e ho hc
    refine ⟨waitLoop_resolved env seq _ fuel attempt hs, fun ha => ?_⟩
    subst ha
    exact consumeLoop_cancelErr env hd fuel seq e (waitLoop_resolved env seq _ fuel 0 hs)

theorem C3_cancellation_witness :
    consumeLoop envGrace (fun _ => none) 1 0 = ([], .ret none) ∧
    consumeLoop envOther (fun _ => none) 1 0 = ([], .ret (some "context cause")) :=
  ⟨(((C3_cancellation envGrace (fun _ => none) 0 0 0) rfl).1 (Or.inl rfl)).2 rfl,
    (((C3_cancellation envOther (fun _ => none) 0 0 0) rfl).2 "context cause" rfl).2 rfl⟩

/-- Claim C4: a not-found open error is never surfaced — the source waits one
poll period and retries the same sequence number — while any other open error
is returned immediately; in particular every fatal acquisition outcome stems
from a non-not-found open error. -/
theorem C4_openErrors (env : Env) (hd : Bytes → Option String)
    (seq attempt fuel : Nat) :
    (env.openSeg seq attempt = .notFound → env.ctxAt seq attempt = .active →
      waitLoop env seq (fuel + 1) attempt = waitLoop env seq fuel (attempt + 1)) ∧
    (∀ e, env.openSeg seq attempt = .err e →
      waitLoop env seq fuel attempt = .fatal e ∧
      (attempt = 0 → consumeLoop env hd (fuel + 1) seq = ([], .ret (some e)))) ∧
    (∀ e, waitLoop env seq fuel attempt = .fatal e →
      ∃ a, env.openSeg seq a = .err e) := by
  refine ⟨fun ho hc => ?_, fun e he => ?_,
    fun e hw => waitLoop_fatal_srcE env seq fuel attempt e hw⟩
  · exact waitLoop_retry env seq fuel attempt (waitStep_none env seq attempt ho hc)
  · have hs := waitStep_err env seq attempt e he
    refine ⟨waitLoop_resolved env seq _ fuel attempt hs, fun ha => ?_⟩
    subst ha
    exact consumeLoop_openFatal env hd fuel seq e (waitLoop_resolved env seq _ fuel 0 hs)

theorem C4_openErrors_witness :
    waitLoop envPoll 0 1 0 = waitLoop envPoll 0 0 1 ∧
    consumeLoop envErr (fun _ => none) 1 0 = ([], .ret (some "open failed")) :=
  ⟨(C4_openErrors envPoll (fun _ => none) 0 0 0).1 rfl rfl,
    ((C4_openErrors envErr (fun _ => none) 0 0 0).2.1 "open failed" rfl).2 rfl⟩

/-- Claim C5: a frame-decode step reads exactly 4 bytes as a little-endian
unsigned 32-bit length; a positive length reads exactly that many payload
bytes as one message; any short read — fewer than 4 length bytes, or fewer
payload bytes than declared — is a fatal decode error, distinct from clean
end-marker exhaustion. -/
theorem C5_frameDecode (hd : Bytes → Option String) (b0 b1 b2 b3 : Nat)
    (rest bytes : Bytes) :
    (0 < leUint32 b0 b1 b2 b3 → leUint32 b0 b1 b2 b3 ≤ rest.length →
      hd (rest.take (leUint32 b0 b1 b2 b3)) = none →
      readLoop hd (b0 :: b1 :: b2 :: b3 :: rest) =
        (rest.take (leUint32 b0 b1 b2 b3) ::
            (readLoop hd (rest.drop (leUint32 b0 b1 b2 b3))).1,
          (readLoop hd (rest.drop (leUint32 b0 b1 b2 b3))).2)) ∧
    (bytes.length < 4 → ∃ e, readLoop hd bytes = ([], .fatal e)) ∧
    (0 < leUint32 b0 b1 b2 b3 → rest.length < leUint32 b0 b1 b2 b3 →
      ∃ e, readLoop hd (b0 :: b1 :: b2 :: b3 :: rest) = ([], .fatal e)) ∧
    (∀ e, ReadStatus.fatal e ≠ ReadStatus.exhausted) := by
  refine ⟨fun hpos hle hnone => ?_, fun hlt => ?_, fun hpos hshort => ?_,
    fun e => by simp⟩
  · rw [readLoop_message hd b0 b1 b2 b3 rest hpos hle, hnone]
  · exact ⟨_, readLoop_shortLen hd bytes hlt⟩
  · exact ⟨_, readLoop_shortPayload hd b0 b1 b2 b3 rest hpos hshort⟩

theorem C5_frameDecode_witness :
    readLoop (fun _ => none) [2, 0, 0, 0, 7, 8] =
      ([[7, 8]], .fatal "Could not read length (EOF)") ∧
    (∃ e, readLoop (fun _ => none) [1, 2] = ([], .fatal e)) ∧
    (∃ e, readLoop (fun _ => none) [5, 0, 0, 0, 1] = ([], .fatal e)) := by
  refine ⟨?_, (C5_frameDecode (fun _ => none) 0 0 0 0 [] [1, 2]).2.1 (by decide),
    (C5_frameDecode (fun _ => none) 5 0 0 0 [1] []).2.2.1 (by decide) (by decide)⟩
  have h1 := (C5_frameDecode (fun _ => none) 2 0 0 0 [7, 8] []).1 (by decide)
    (by decide) rfl
  have hempty : readLoop (fun _ => none) (([7, 8] : Bytes).drop (leUint32 2 0 0 0)) =
      ([], .fatal "Could not read length (EOF)") := by
    have h2 := readLoop_shortLen (fun _ => none)
      (([7, 8] : Bytes).drop (leUint32 2 0 0 0)) (by decide)
    simpa using h2
  rw [h1, hempty]
  simp [leUint32]

/-- Claim C6: if the handler returns an error on a delivered message, the
consume operation aborts immediately with exactly that error: later frames of
the segment are never decoded and no skipping occurs. -/
theorem C6_handlerError (env : Env) (hd : Bytes → Option String)
    (fuel seq : Nat) (content : Bytes) (ms : List Bytes) (e : String)
    (p : Bytes) (ps : List Bytes) :
    (hd p = some e → 0 < p.length → p.length < 4294967296 →
      readLoop hd (encodeSegment (p :: ps)) = ([p], .handlerErr e)) ∧
    (env.openSeg seq 0 = .ok content → readLoop hd content = (ms, .handlerErr e) →
      consumeLoop env hd (fuel + 1) seq = (ms, .ret (some e))) := by
  refine ⟨fun hhd hp1 hp2 => ?_, fun ho hr => ?_⟩
  · rw [encodeSegment, readLoop_frame hd p (encodeSegment ps) hp1 hp2, hhd]
  · exact consumeLoop_drainHandlerErr env hd fuel seq content ms e
      (waitLoop_resolved env seq _ fuel 0 (waitStep_ok env seq 0 content ho)) hr

theorem C6_handlerError_witness :
    readLoop (fun _ => some "handler failed") (encodeSegment [[1], [2]]) =
      ([[1]], .handlerErr "handler failed") ∧
    consumeLoop envHandler (fun _ => some "handler failed") 1 0 =
      ([[1]], .ret (some "handler failed")) := by
  have h1 := (C6_handlerError envHandler (fun _ => some "handler failed") 0 0
    (encodeSegment [[1], [2]]) [[1]] "handler failed" [1] [[2]]).1 rfl
    (by decide) (by decide)
  exact ⟨h1, (C6_handlerError envHandler (fun _ => some "handler failed") 0 0
    (encodeSegment [[1], [2]]) [[1]] "handler failed" [1] [[2]]).2 rfl h1⟩

/-- Claim C7: the loop has no terminal success state: a nil return only
arises from a graceful cancellation observed during an acquisition wait, any
other return carries an error that arose as a fatal or handler error, and a
cleanly drained segment with no successor leads back to the acquisition wait
(the loop keeps spinning) rather than terminating. -/
theorem C7_noTerminalSuccess (env : Env) (hd : Bytes → Option String)
    (fuel seq : Nat) (ms : List Bytes) (e : String) (content : Bytes) :
    (ConsumeMessages env hd fuel = (ms, .ret none) →
      ∃ s a, env.openSeg s a = .notFound ∧
        (env.ctxAt s a = .deadlineExceeded ∨ env.ctxAt s a = .canceled)) ∧
    (ConsumeMessages env hd fuel = (ms, .ret (some e)) → ErrSource env hd e) ∧
    (waitLoop env seq fuel 0 = .opened content →
      readLoop hd content = (ms, .exhausted) → env.closeErr seq = none →
      (∀ a, env.openSeg (seq + 1) a = .notFound) →
      (∀ a, env.ctxAt (seq + 1) a = .active) →
      consumeLoop env hd (fuel + 1) seq = (ms, .spin)) := by
  refine ⟨fun h => consumeLoop_ret_none_src env hd fuel 0 ms h,
    fun h => consumeLoop_ret_some_src env hd fuel 0 ms e h,
    fun hw hr hc hno hac => ?_⟩
  rw [consumeLoop_nextSeq env hd fuel seq content ms hw hr hc,
    consumeLoop_spin_forever env hd (seq + 1) hno hac fuel]
  simp

theorem C7_noTerminalSuccess_witness :
    (∃ s a, envGrace.openSeg s a = .notFound ∧
      (envGrace.ctxAt s a = .deadlineExceeded ∨ envGrace.ctxAt s a = .canceled)) ∧
    consumeLoop envTail (fun _ => none) 1 0 = ([], .spin) :=
  ⟨(C7_noTerminalSuccess envGrace (fun _ => none) 1 0 [] "x" []).1 rfl,
    (C7_noTerminalSuccess envTail (fun _ => none) 0 0 [] "x" [0, 0, 0, 0]).2.2 rfl
      (readLoop_endMarker (fun _ => none) 0 0 0 0 rfl) rfl (fun _ => rfl) (fun _ => rfl)⟩

/-- Claim C8: the segment path decomposes the sequence number into 7 fixed
big-endian byte groups rendered as two lowercase hex digits — all but the
least significant as directory levels under the root, the least significant
as the file name — and the mapping is uniform-length and injective (hence
deterministic) over the whole supported range. -/
theorem C8_pathScheme (root : String) (seq s2 : Nat) :
    seqToPath root seq = seqToPathSpec root seq ∧
    (seqToPath root seq).length = root.length + 21 ∧
    (seq < 72057594037927936 → s2 < 72057594037927936 →
      seqToPath root seq = seqToPath root s2 → seq = s2) :=
  ⟨seqToPath_eq_spec root seq, seqToPath_length root seq,
    fun hb1 hb2 hp => seqToPath_inj root seq s2 hb1 hb2 hp⟩

theorem C8_pathScheme_witness :
    seqToPath "/foo" 258 = seqToPathSpec "/foo" 258 ∧
    (seqToPath "/foo" 258).length = "/foo".length + 21 ∧
    (258 < 72057594037927936 → 258 < 72057594037927936 →
      seqToPath "/foo" 258 = seqToPath "/foo" 258 → 258 = 258) :=
  C8_pathScheme "/foo" 258 258

/-- Claim C9: `NewMessageSource` defaults an unset (zero) `PollPeriod` to
exactly 5 seconds and keeps a non-zero configured `PollPeriod` unchanged. -/
theorem C9_pollPeriodDefault (ss : StreamStore) (config : MessageSourceConfig) :
    (config.PollPeriod = 0 →
      (NewMessageSource ss config).pollPeriod = 5000000000) ∧
    (config.PollPeriod ≠ 0 →
      (NewMessageSource ss config).pollPeriod = config.PollPeriod) := by
  constructor
  · intro h
    norm_num [NewMessageSource, h, timeSecond]
  · intro h
    simp [NewMessageSource, h]

theorem C9_pollPeriodDefault_witness :
    (NewMessageSource (.base 0) ⟨"/q", 0, 0⟩).pollPeriod = 5000000000 ∧
    (NewMessageSource (.base 0) ⟨"/q", 7, 0⟩).pollPeriod = 7 :=
  ⟨(C9_pollPeriodDefault (.base 0) ⟨"/q", 0, 0⟩).1 rfl,
    (C9_pollPeriodDefault (.base 0) ⟨"/q", 7, 0⟩).2 (by decide)⟩

/-- Claim C10: a `CompressionType` that is neither none nor snappy falls
through the `switch` in `NewMessageSource`: the stream store is used
unwrapped and the constructed source is identical to the one built with
`CompressionTypeNone`. -/
theorem C10_unknownCompression (ss : StreamStore) (config : MessageSourceConfig) :
    config.CompressionType ≠ CompressionTypeNone →
    config.CompressionType ≠ CompressionTypeSnappy →
    (NewMessageSource ss config).streamstore = ss ∧
    NewMessageSource ss config =
      NewMessageSource ss { config with CompressionType := CompressionTypeNone } := by
  intro h1 h2
  constructor
  · simp [NewMessageSource, h1, h2]
  · simp [NewMessageSource, h1, h2, CompressionTypeNone]

theorem C10_unknownCompression_witness :
    (NewMessageSource (.base 0) ⟨"/q", 3, 2⟩).streamstore = .base 0 ∧
    NewMessageSource (.base 0) ⟨"/q", 3, 2⟩ =
      NewMessageSource (.base 0) ⟨"/q", 3, CompressionTypeNone⟩ :=
  C10_unknownCompression (.base 0) ⟨"/q", 3, 2⟩ (by decide) (by decide)

end Freezer
